import Mathlib

/-!
Shallow embedding of the quest lifecycle engine of a location-based quest
backend (an Express + MySQL + S3 service).  The definitions mirror the
JavaScript of the main server source file: the random-quest selector
(GET /api/quests/random), the answer-check endpoint with its write-once
score store (POST /api/quests/:id/check), the photo-upload auto-scoring
path (POST /api/s3/upload), the startup reconciliation job
(syncPhotoQuestsToScores), the default-image directory cache
(getSeongsanImageList / getSeongsanImageUrl) and the history image
resolver (GET /api/users/:user_id/quests).

Modelling conventions:
* the MySQL `quests` table is a `List Quest`; `SELECT * WHERE id = ?`
  becomes `List.find?` (ids are a primary key, so the first row is the row);
* `ORDER BY RAND() LIMIT 1` is modelled by an index oracle `r : Nat`:
  `pickRandom l r = l[r % l.length]?` returns some element exactly when the
  result set is nonempty;
* `Math.random() < 0.5` is modelled by a rational draw `rt < 1/2`;
* the `user_quest_scores` table is a `List ScoreRecord`; the SQL
  `INSERT ... ON DUPLICATE KEY UPDATE user_id = user_id` together with the
  `UNIQUE KEY unique_user_quest (user_id, quest_id)` constraint becomes
  `insertScoreNoOp` (append only when no row with the same pair exists);
  the AUTO_INCREMENT surrogate id is omitted;
* S3 and the presigner are abstracted: a bucket listing outcome is an
  `Except String (List String)` of object keys and signing is a
  `String → Option String` (`none` = the SDK call threw, which the source
  catches and maps to null);
* database errors thrown around the best-effort score writes are modelled
  by explicit `persistFails` flags (the source catches them and logs);
* JavaScript truthiness of a string is `s ≠ ""`, of a numeric quest id is
  `≠ 0`; absent optional request fields are `Option.none`.
-/

namespace QuestEngine

/-- The two quest types distinguished by the selector.  In the database a
photo quest is encoded by all four options holding the sentinel value. -/
inductive QuestType where
  | photo
  | question
deriving DecidableEq

def oppositeType : QuestType → QuestType
  | .photo => .question
  | .question => .photo

/-- The sentinel option value marking a photo-mission quest. -/
def photoSentinel : String := "사진 미션"

/-- A row of the `quests` table (see quest-data.sql). -/
structure Quest where
  id : Nat
  city : String
  town : Option String
  village : Option String
  question : String
  option_a : String
  option_b : String
  option_c : String
  option_d : String
  correct_answer : String
  score : Nat
deriving DecidableEq

/-- The source decides photo-ness by `quest.option_a === '사진 미션'`. -/
def isPhotoQuest (q : Quest) : Bool := q.option_a == photoSentinel

structure Region where
  city : String
  town : Option String
  village : Option String
deriving DecidableEq

/-- Query parameters of GET /api/quests/random: `city` is mandatory
(`""` models a missing / falsy parameter), `town` and `village` are
`none` when absent or empty (JS falsy). -/
structure RegionFilter where
  city : String
  town : Option String
  village : Option String
deriving DecidableEq

/-- The WHERE clause of the selector: `city = ?` always, plus `town = ?`
and `village = ?` exactly when the parameter was supplied. -/
def matchesRegion (f : RegionFilter) (q : Quest) : Bool :=
  q.city == f.city &&
    (match f.town with
     | none => true
     | some t => q.town == some t) &&
    (match f.village with
     | none => true
     | some v => q.village == some v)

/-- Type part of the WHERE clause: `option_a = '사진 미션'` for photo,
`option_a != '사진 미션'` for question. -/
def matchesType (t : QuestType) (q : Quest) : Bool :=
  match t with
  | .photo => isPhotoQuest q
  | .question => !isPhotoQuest q

/-- The SELECT of the selector for one type (before ORDER BY RAND). -/
def queryQuests (db : List Quest) (f : RegionFilter) (t : QuestType) : List Quest :=
  db.filter fun q => matchesRegion f q && matchesType t q

/-- `ORDER BY RAND() LIMIT 1`: the oracle `r` picks an index. -/
def pickRandom {α : Type} (l : List α) (r : Nat) : Option α :=
  l[r % l.length]?

/-- `Math.random() < 0.5 ? 'photo' : 'question'` with the random draw
modelled as a rational in `[0, 1)` (`mkRat 1 2` is the literal 0.5). -/
def drawType (rt : Rat) : QuestType :=
  if rt < mkRat 1 2 then .photo else .question

/-- Response body of a photo quest: instruction, location hint, upload
endpoint, an empty `options` object kept for front-end compatibility. -/
structure PhotoBody where
  id : Nat
  region : Region
  instruction : String
  locationHint : String
  uploadEndpoint : String
  options : List (String × String)
  score : Nat
deriving DecidableEq

/-- Response body of a question quest: the four options, no correct
answer field. -/
structure QuestionBody where
  id : Nat
  region : Region
  question : String
  options : List (String × String)
  score : Nat
deriving DecidableEq

inductive RandomQuestBody where
  | photo (b : PhotoBody)
  | question (b : QuestionBody)
deriving DecidableEq

def photoBody (q : Quest) : RandomQuestBody :=
  .photo { id := q.id, region := ⟨q.city, q.town, q.village⟩,
           instruction := q.question, locationHint := q.question,
           uploadEndpoint := "/api/s3/upload", options := [], score := q.score }

def questionBody (q : Quest) : RandomQuestBody :=
  .question { id := q.id, region := ⟨q.city, q.town, q.village⟩,
              question := q.question,
              options := [("A", q.option_a), ("B", q.option_b),
                          ("C", q.option_c), ("D", q.option_d)],
              score := q.score }

/-- The source chooses the response shape by the resolved type
(`questType` on the primary path, `finalType` on the fallback path). -/
def bodyFor : QuestType → Quest → RandomQuestBody
  | .photo, q => photoBody q
  | .question, q => questionBody q

def isPhotoBody : RandomQuestBody → Bool
  | .photo _ => true
  | .question _ => false

def RandomQuestBody.region : RandomQuestBody → Region
  | .photo b => b.region
  | .question b => b.region

inductive RandomQuestResult where
  | badRequest (error : String)
  | ok (body : RandomQuestBody)
  | notFound (error : String) (availableCities : List String)
deriving DecidableEq

/-- `SELECT DISTINCT city FROM quests`, attached to the 404 diagnostics. -/
def availableCities (db : List Quest) : List String :=
  (db.map fun q => q.city).dedup

def noQuestMsg (f : RegionFilter) : String :=
  "No quest found for region: " ++ f.city ++
    (match f.town with | some t => " " ++ t | none => "") ++
    (match f.village with | some v => " " ++ v | none => "")

/-- GET /api/quests/random: draw a type, query region+type, on an empty
result run exactly one fallback query with the opposite type, then 404
with the available-cities diagnostic. -/
def randomQuest (db : List Quest) (f : RegionFilter) (rt : Rat) (r1 r2 : Nat) :
    RandomQuestResult :=
  if f.city = "" then .badRequest "City parameter is required"
  else
    match pickRandom (queryQuests db f (drawType rt)) r1 with
    | some q => .ok (bodyFor (drawType rt) q)
    | none =>
      match pickRandom (queryQuests db f (oppositeType (drawType rt))) r2 with
      | some q => .ok (bodyFor (oppositeType (drawType rt)) q)
      | none => .notFound (noQuestMsg f) (availableCities db)

/-- `String.prototype.toUpperCase` restricted to the ASCII range used by
answers (A-D), applied character-wise. -/
def jsToUpper (s : String) : String := String.mk (s.data.map Char.toUpper)

/-- A row of `user_quest_scores` (without the AUTO_INCREMENT id). -/
structure ScoreRecord where
  user_id : String
  quest_id : Nat
  city : String
  town : Option String
  village : Option String
  question : String
  user_answer : String
  correct_answer : String
  score : Nat
  answered_at : Nat
deriving DecidableEq

/-- `INSERT ... ON DUPLICATE KEY UPDATE user_id = user_id` under the
`unique_user_quest (user_id, quest_id)` constraint: a no-op when a row
with the same pair already exists, an append otherwise. -/
def insertScoreNoOp (store : List ScoreRecord) (r : ScoreRecord) : List ScoreRecord :=
  if store.any (fun s => s.user_id == r.user_id && s.quest_id == r.quest_id) then store
  else store ++ [r]

/-- All stored rows for one (user_id, quest_id) pair. -/
def recordsFor (store : List ScoreRecord) (u : String) (qid : Nat) : List ScoreRecord :=
  store.filter fun r => r.user_id == u && r.quest_id == qid

def samePair (a b : ScoreRecord) : Prop :=
  a.user_id = b.user_id ∧ a.quest_id = b.quest_id

instance (a b : ScoreRecord) : Decidable (samePair a b) :=
  inferInstanceAs (Decidable (a.user_id = b.user_id ∧ a.quest_id = b.quest_id))

/-- The uniqueness invariant of `user_quest_scores`. -/
def PairUnique (store : List ScoreRecord) : Prop :=
  store.Pairwise fun a b => ¬ samePair a b

instance (store : List ScoreRecord) : Decidable (PairUnique store) :=
  List.instDecidablePairwise store

/-- Response of POST /api/quests/:id/check. -/
structure CheckResponse where
  id : Nat
  region : Region
  question : String
  options : List (String × String)
  userAnswer : String
  correctAnswer : String
  correct : Bool
  score : Nat
  questScore : Nat
deriving DecidableEq

inductive CheckResult where
  | badRequest (error : String)
  | notFound (error : String)
  | ok (body : CheckResponse)
deriving DecidableEq

/-- The JSON body returned by the check endpoint for quest `q` and raw
answer `a`: full quest detail, the case-folded comparison verdict, the
awarded score (1 or 0) and the quest's nominal score. -/
def checkBody (q : Quest) (a : String) : CheckResponse :=
  { id := q.id, region := ⟨q.city, q.town, q.village⟩, question := q.question,
    options := [("A", q.option_a), ("B", q.option_b), ("C", q.option_c), ("D", q.option_d)],
    userAnswer := jsToUpper a, correctAnswer := q.correct_answer,
    correct := jsToUpper q.correct_answer == jsToUpper a,
    score := if jsToUpper q.correct_answer == jsToUpper a then 1 else 0,
    questScore := q.score }

/-- The HTTP-visible part of POST /api/quests/:id/check: 400 on a missing
answer, 404 on an unknown quest id, otherwise the check body.  It does
not depend on the score store. -/
def checkResult (db : List Quest) (qid : Nat) (answer : Option String) : CheckResult :=
  match answer with
  | none => .badRequest "Answer is required"
  | some a =>
    if a = "" then .badRequest "Answer is required"
    else
      match db.find? (fun qq => qq.id == qid) with
      | none => .notFound ("Quest not found with id: " ++ toString qid)
      | some q => .ok (checkBody q a)

/-- The row the check endpoint inserts (answer stored upper-cased, score
1 or 0 by the same comparison as the response). -/
def mkCheckRecord (q : Quest) (qid : Nat) (u : String) (a : String) (now : Nat) : ScoreRecord :=
  { user_id := u, quest_id := qid, city := q.city, town := q.town, village := q.village,
    question := q.question, user_answer := jsToUpper a, correct_answer := q.correct_answer,
    score := if jsToUpper q.correct_answer == jsToUpper a then 1 else 0,
    answered_at := now }

/-- The store effect of POST /api/quests/:id/check: the insert fires only
when the inputs are valid, the quest resolves and a (truthy) user_id was
sent; a thrown insert error (`persistFails`) is caught, leaving the store
unchanged. -/
def checkStore (db : List Quest) (store : List ScoreRecord) (qid : Nat)
    (answer : Option String) (uid : Option String) (persistFails : Bool) (now : Nat) :
    List ScoreRecord :=
  match answer with
  | none => store
  | some a =>
    if a = "" then store
    else
      match db.find? (fun qq => qq.id == qid) with
      | none => store
      | some q =>
        match uid with
        | none => store
        | some u =>
          if u = "" then store
          else if persistFails then store
          else insertScoreNoOp store (mkCheckRecord q qid u a now)

/-- POST /api/quests/:id/check as a whole: the response and the new store. -/
def checkQuest (db : List Quest) (store : List ScoreRecord) (qid : Nat)
    (answer : Option String) (uid : Option String) (persistFails : Bool) (now : Nat) :
    CheckResult × List ScoreRecord :=
  (checkResult db qid answer, checkStore db store qid answer uid persistFails now)

/-- The sentinel row written by photo-mission completion ('PHOTO' / 'A' /
score 1). -/
def mkPhotoRecord (q : Quest) (qid : Nat) (u : String) (t : Nat) : ScoreRecord :=
  { user_id := u, quest_id := qid, city := q.city, town := q.town, village := q.village,
    question := q.question, user_answer := "PHOTO", correct_answer := "A",
    score := 1, answered_at := t }

/-- A row of `user_upload_history`. -/
structure UploadRecord where
  user_id : String
  quest_id : Option Nat
  file_name : String
  file_key : String
  file_url : String
  uploaded_at : Nat
deriving DecidableEq

/-- The auto-scoring tail of POST /api/s3/upload: when a quest_id was
sent, the quest resolves and is a photo mission, the same no-op-on-
duplicate insert fires with the sentinel values; a thrown error is
caught (`persistFails`). -/
def uploadAutoScore (db : List Quest) (store : List ScoreRecord) (uid : String)
    (qid : Option Nat) (persistFails : Bool) (now : Nat) : List ScoreRecord :=
  match qid with
  | none => store
  | some i =>
    match db.find? (fun qq => qq.id == i) with
    | none => store
    | some q =>
      if isPhotoQuest q then
        if persistFails then store
        else insertScoreNoOp store (mkPhotoRecord q i uid now)
      else store

/-- The (user_id, quest_id, uploaded_at) projection the reconciliation
query selects. -/
structure UploadKeyRow where
  user_id : String
  quest_id : Nat
  uploaded_at : Nat
deriving DecidableEq

/-- The reconciliation SELECT: DISTINCT upload rows whose quest is a
photo mission and for which no score row exists yet, newest first. -/
def pendingUploads (db : List Quest) (store : List ScoreRecord)
    (uploads : List UploadRecord) : List UploadKeyRow :=
  ((uploads.filterMap fun u =>
      match u.quest_id with
      | none => none
      | some qid =>
        if (db.any fun q => q.id == qid && isPhotoQuest q) &&
            !(store.any fun s => s.user_id == u.user_id && s.quest_id == qid) then
          some ⟨u.user_id, qid, u.uploaded_at⟩
        else none).dedup).insertionSort fun a b => b.uploaded_at ≤ a.uploaded_at

/-- One iteration of the reconciliation loop: re-fetch the quest, insert
the sentinel row with `uploaded_at` as `answered_at`; an individual
failure (`fails row`) is caught and only logged. -/
def reconcileStep (db : List Quest) (fails : UploadKeyRow → Bool)
    (store : List ScoreRecord) (row : UploadKeyRow) : List ScoreRecord :=
  if fails row then store
  else
    match db.find? (fun qq => qq.id == row.quest_id) with
    | none => store
    | some q => insertScoreNoOp store (mkPhotoRecord q row.quest_id row.user_id row.uploaded_at)

/-- The startup reconciliation job `syncPhotoQuestsToScores`. -/
def syncPhotoQuestsToScores (db : List Quest) (fails : UploadKeyRow → Bool)
    (store : List ScoreRecord) (uploads : List UploadRecord) : List ScoreRecord :=
  (pendingUploads db store uploads).foldl (reconcileStep db fails) store

/-- The three kinds of operations that write `user_quest_scores`. -/
inductive ScoreOp where
  | check (qid : Nat) (answer : Option String) (uid : Option String)
      (persistFails : Bool) (now : Nat)
  | photoUpload (uid : String) (qid : Option Nat) (persistFails : Bool) (now : Nat)
  | reconcile (uploads : List UploadRecord) (fails : UploadKeyRow → Bool)

def applyScoreOp (db : List Quest) (store : List ScoreRecord) : ScoreOp → List ScoreRecord
  | .check qid answer uid persistFails now =>
    checkStore db store qid answer uid persistFails now
  | .photoUpload uid qid persistFails now =>
    uploadAutoScore db store uid qid persistFails now
  | .reconcile uploads fails =>
    syncPhotoQuestsToScores db fails store uploads

def applyScoreOps (db : List Quest) (store : List ScoreRecord) (ops : List ScoreOp) :
    List ScoreRecord :=
  ops.foldl (applyScoreOp db) store

/-- Splitting a character list at every non-overlapping occurrence of a
(nonempty) separator, leftmost first — the semantics of JavaScript
`String.prototype.split`.  The fuel argument (instantiated with the
length of the input) keeps the recursion structural. -/
def splitOnCharsFuel (sep : List Char) : Nat → List Char → List Char → List (List Char)
  | 0, l, acc => [acc.reverse ++ l]
  | fuel + 1, l, acc =>
    match l with
    | [] => [acc.reverse]
    | c :: rest =>
      if sep.isPrefixOf (c :: rest) then
        acc.reverse :: splitOnCharsFuel sep fuel (rest.drop (sep.length - 1)) []
      else splitOnCharsFuel sep fuel rest (c :: acc)

/-- JavaScript `s.split(sep)` (for the empty separator the source never
relies on the character-by-character behaviour, so it is mapped to the
whole string, which keeps `includes` faithful). -/
def jsSplit (s sep : String) : List String :=
  match sep.data with
  | [] => [s]
  | _ => (splitOnCharsFuel sep.data s.data.length s.data []).map String.mk

/-- JavaScript `s.startsWith(p)`. -/
def jsStartsWith (s p : String) : Bool := p.data.isPrefixOf s.data

/-- JavaScript `s.endsWith(p)`. -/
def jsEndsWith (s p : String) : Bool := p.data.isSuffixOf s.data

/-- The process-wide default-image cache: last-listed keys (null before
the first listing; an empty array is truthy in JS, hence `some []`) and
the listing timestamp. -/
structure ImageCache where
  keys : Option (List String)
  fetchedAt : Nat
deriving DecidableEq

/-- 5 * 60 * 1000 ms. -/
def CACHE_TTL : Nat := 5 * 60 * 1000

/-- The canonical default-image naming pattern: the file name (key after
the last '/') is truthy, starts with '성산' and ends with '.jpeg'. -/
def isSeongsanDefaultKey (key : String) : Bool :=
  ((jsSplit key "/").getLastD "") != "" &&
    jsStartsWith ((jsSplit key "/").getLastD "") "성산" &&
    jsEndsWith ((jsSplit key "/").getLastD "") ".jpeg"

/-- JavaScript `Array.prototype.sort()` on string keys (lexicographic). -/
def sortKeys (l : List String) : List String :=
  l.insertionSort fun a b => a ≤ b

/-- One refresh of the cache: list the bucket, filter, sort, replace the
cache; on a thrown listing error return `[]` and leave the cache as is.
The third component records whether store I/O happened. -/
def refreshImageList (cache : ImageCache) (now : Nat)
    (listing : Except String (List String)) :
    List String × ImageCache × Bool :=
  match listing with
  | .ok contents =>
    (sortKeys (contents.filter isSeongsanDefaultKey),
     ⟨some (sortKeys (contents.filter isSeongsanDefaultKey)), now⟩, true)
  | .error _ => ([], cache, true)

/-- getSeongsanImageList: return the cached keys with no I/O while the
cache is populated and fresh, otherwise refresh. -/
def getSeongsanImageList (cache : ImageCache) (now : Nat)
    (listing : Except String (List String)) :
    List String × ImageCache × Bool :=
  match cache.keys with
  | some ks =>
    if now - cache.fetchedAt < CACHE_TTL then (ks, cache, false)
    else refreshImageList cache now listing
  | none => refreshImageList cache now listing

/-- Outcome of the HeadObject existence probe. -/
inductive HeadResult where
  | found
  | missing
  | otherErr
deriving DecidableEq

def seongsanKey (i : Nat) : String := "uploads/seongsan" ++ toString i ++ ".jpeg"

/-- getSeongsanImageUrl: null without a bucket or for an index outside
0..2; null when HeadObject reports the object missing (any other head
error is ignored); otherwise a presigned URL for uploads/seongsanN.jpeg,
null when the presigner throws (`sign` returns `none`). -/
def getSeongsanImageUrl (bucketSet : Bool) (i : Nat) (head : HeadResult)
    (sign : String → Option String) : Option String :=
  if !bucketSet then none
  else if i > 2 then none
  else
    match head with
    | .missing => none
    | _ => sign (seongsanKey i)

/-- The substring the history endpoint probes with `String.includes`. -/
def s3HostMarker : String := "s3.ap-northeast-2.amazonaws.com"

/-- JavaScript `s.includes(sub)`. -/
def jsIncludes (s sub : String) : Bool :=
  sub == "" || (jsSplit s sub).length > 1

/-- `url.split('.s3.ap-northeast-2.amazonaws.com/')[1]?.split('?')[0]`,
with `""` standing for a falsy (undefined or empty) result. -/
def extractFileKey (url : String) : String :=
  match (jsSplit url ".s3.ap-northeast-2.amazonaws.com/")[1]? with
  | none => ""
  | some rest => (jsSplit rest "?").headD ""

/-- The second pass of the history endpoint over one entry's image URL:
when the URL contains the ap-northeast-2 host marker and a file key can
be extracted, presign that key; when the presigner throws the source
keeps the original URL ("실패해도 원본 URL 사용"); in every other case the
stored URL is passed through unchanged. -/
def resolveDisplayUrl (sign : String → Option String) (stored : Option String) :
    Option String :=
  match stored with
  | none => none
  | some url =>
    if jsIncludes url s3HostMarker then
      if extractFileKey url != "" then
        match sign (extractFileKey url) with
        | some fresh => some fresh
        | none => some url
      else some url
    else some url

/-- `ORDER BY uploaded_at DESC LIMIT 1` over the matching uploads. -/
def latestUpload (l : List UploadRecord) : Option UploadRecord :=
  (l.insertionSort fun a b => b.uploaded_at ≤ a.uploaded_at).head?

/-- The upload lookup of the first pass (the happy path in which the
quest_id column exists): newest upload for (user_id, quest_id), keeping
its stored file_url. -/
def lookupUploadUrl (uploads : List UploadRecord) (uid : String) (qid : Nat) :
    Option String :=
  (latestUpload (uploads.filter fun u => u.user_id == uid && u.quest_id == some qid)).map
    fun u => u.file_url

/-- The first pass of the history endpoint over one entry: the stored
upload URL when one exists, else the default image for the entry's
0-based position when that position is < 3, else no image. -/
def firstPassImage (uploads : List UploadRecord) (uid : String) (qid : Nat) (idx : Nat)
    (defaultUrl : Nat → Option String) : Option String :=
  match (if qid != 0 then lookupUploadUrl uploads uid qid else none) with
  | some url => some url
  | none => if idx < 3 then defaultUrl idx else none

/-- The history SELECT: this user's score rows, newest answered first. -/
def userHistoryRows (store : List ScoreRecord) (uid : String) : List ScoreRecord :=
  (store.filter fun r => r.user_id == uid).insertionSort fun a b =>
    b.answered_at ≤ a.answered_at

/-- `rows.map((row, index) => ...)` composed with the second pass. -/
def historyImagesAux (uploads : List UploadRecord) (uid : String)
    (defaultUrl : Nat → Option String) (sign : String → Option String) :
    Nat → List ScoreRecord → List (Option String)
  | _, [] => []
  | idx, r :: rs =>
    resolveDisplayUrl sign (firstPassImage uploads uid r.quest_id idx defaultUrl) ::
      historyImagesAux uploads uid defaultUrl sign (idx + 1) rs

/-- The image column of GET /api/users/:user_id/quests: one (possibly
null) display URL per history row; every sub-failure is absorbed, so the
request itself always succeeds with one entry per row. -/
def historyImages (store : List ScoreRecord) (uploads : List UploadRecord) (uid : String)
    (defaultUrl : Nat → Option String) (sign : String → Option String) :
    List (Option String) :=
  historyImagesAux uploads uid defaultUrl sign 0 (userHistoryRows store uid)

/-! Concrete data used by the witnesses and counterexamples. -/

def quest1 : Quest :=
  { id := 1, city := "Jeju", town := some "Aewol", village := some "Woljeong",
    question := "Which sea?", option_a := "a1", option_b := "b1", option_c := "c1",
    option_d := "d1", correct_answer := "B", score := 1 }

def quest2 : Quest :=
  { id := 2, city := "Jeju", town := some "Aewol", village := some "Woljeong",
    question := "Take a beach photo", option_a := "사진 미션", option_b := "사진 미션",
    option_c := "사진 미션", option_d := "사진 미션", correct_answer := "A", score := 1 }

def db1 : List Quest := [quest1, quest2]

/-- A region catalog whose only quest in the filtered region is
question-type. -/
def dbQ : List Quest := [quest1]

def f1 : RegionFilter := ⟨"Jeju", some "Aewol", some "Woljeong"⟩

/-- A region filter no quest matches. -/
def f2 : RegionFilter := ⟨"Busan", none, none⟩

def rec1 : ScoreRecord :=
  { user_id := "u", quest_id := 1, city := "Jeju", town := some "Aewol",
    village := some "Woljeong", question := "Which sea?", user_answer := "B",
    correct_answer := "B", score := 1, answered_at := 2 }

def rec2 : ScoreRecord :=
  { user_id := "u", quest_id := 2, city := "Jeju", town := some "Aewol",
    village := some "Woljeong", question := "Take a beach photo", user_answer := "PHOTO",
    correct_answer := "A", score := 1, answered_at := 1 }

def upRegional : UploadRecord :=
  { user_id := "u", quest_id := some 1, file_name := "x.jpg",
    file_key := "uploads/x.jpg",
    file_url := "https://b.s3.ap-northeast-2.amazonaws.com/uploads/x.jpg",
    uploaded_at := 5 }

def upOtherRegion : UploadRecord :=
  { user_id := "u", quest_id := some 1, file_name := "x.jpg",
    file_key := "uploads/x.jpg",
    file_url := "https://b.s3.us-east-1.amazonaws.com/uploads/x.jpg",
    uploaded_at := 5 }

def upPhoto : UploadRecord :=
  { user_id := "alice", quest_id := some 2, file_name := "p.jpg",
    file_key := "uploads/p.jpg",
    file_url := "https://b.s3.ap-northeast-2.amazonaws.com/uploads/p.jpg",
    uploaded_at := 7 }

def defaultUrl0 : Nat → Option String := fun i => some ("default" ++ toString i)

def signNone : String → Option String := fun _ => none

def signOk : String → Option String := fun k => some ("signed:" ++ k)

def ops1 : List ScoreOp :=
  [ScoreOp.check 1 (some "b") (some "alice") false 10,
   ScoreOp.photoUpload "alice" (some 2) false 11,
   ScoreOp.reconcile [upPhoto] fun _ => false]

/-! Helper lemmas about the write-once score store. -/

theorem any_samePair_false {store : List ScoreRecord} {r : ScoreRecord}
    (h : (store.any fun s => s.user_id == r.user_id && s.quest_id == r.quest_id) = false) :
    ∀ s ∈ store, ¬ samePair s r := by
  intro s hs hsp
  have hnot := List.any_eq_false.mp h s hs
  exact hnot (by simp [hsp.1, hsp.2])

theorem insertScoreNoOp_pairUnique {store : List ScoreRecord} {r : ScoreRecord}
    (h : PairUnique store) : PairUnique (insertScoreNoOp store r) := by
  unfold insertScoreNoOp
  split
  · exact h
  · next hany =>
    have hany' :
        (store.any fun s => s.user_id == r.user_id && s.quest_id == r.quest_id) = false := by
      simpa using hany
    rw [PairUnique, List.pairwise_append]
    refine ⟨h, List.pairwise_singleton _ _, ?_⟩
    intro a ha b hb
    rcases List.mem_singleton.mp hb with rfl
    exact any_samePair_false hany' a ha

theorem insertScoreNoOp_recordsFixed {store : List ScoreRecord} {r rec : ScoreRecord}
    {u : String} {qid : Nat} (h : recordsFor store u qid = [rec]) :
    recordsFor (insertScoreNoOp store r) u qid = [rec] := by
  unfold insertScoreNoOp
  split
  · exact h
  · next hany =>
    have hrec : rec ∈ store ∧ (rec.user_id == u && rec.quest_id == qid) = true := by
      apply List.mem_filter.mp
      have : rec ∈ recordsFor store u qid := by rw [h]; exact List.mem_singleton_self rec
      exact this
    unfold recordsFor at h ⊢
    rw [List.filter_append, h]
    have hr : (r.user_id == u && r.quest_id == qid) = false := by
      cases e : (r.user_id == u && r.quest_id == qid)
      · rfl
      · exfalso
        apply hany
        rw [List.any_eq_true]
        refine ⟨rec, hrec.1, ?_⟩
        simp only [Bool.and_eq_true, beq_iff_eq] at e ⊢
        have h2 := hrec.2
        simp only [Bool.and_eq_true, beq_iff_eq] at h2
        exact ⟨h2.1.trans e.1.symm, h2.2.trans e.2.symm⟩
    simp [List.filter_cons, hr]

theorem checkStore_eq_or_insert (db : List Quest) (store : List ScoreRecord) (qid : Nat)
    (answer : Option String) (uid : Option String) (pf : Bool) (now : Nat) :
    checkStore db store qid answer uid pf now = store ∨
      ∃ r, checkStore db store qid answer uid pf now = insertScoreNoOp store r := by
  unfold checkStore
  split
  · exact Or.inl rfl
  · split
    · exact Or.inl rfl
    · split
      · exact Or.inl rfl
      · split
        · exact Or.inl rfl
        · split
          · exact Or.inl rfl
          · split
            · exact Or.inl rfl
            · exact Or.inr ⟨_, rfl⟩

theorem uploadAutoScore_eq_or_insert (db : List Quest) (store : List ScoreRecord)
    (uid : String) (qid : Option Nat) (pf : Bool) (now : Nat) :
    uploadAutoScore db store uid qid pf now = store ∨
      ∃ r, uploadAutoScore db store uid qid pf now = insertScoreNoOp store r := by
  unfold uploadAutoScore
  split
  · exact Or.inl rfl
  · split
    · exact Or.inl rfl
    · split
      · split
        · exact Or.inl rfl
        · exact Or.inr ⟨_, rfl⟩
      · exact Or.inl rfl

theorem reconcileStep_eq_or_insert (db : List Quest) (fails : UploadKeyRow → Bool)
    (store : List ScoreRecord) (row : UploadKeyRow) :
    reconcileStep db fails store row = store ∨
      ∃ r, reconcileStep db fails store row = insertScoreNoOp store r := by
  unfold reconcileStep
  split
  · exact Or.inl rfl
  · split
    · exact Or.inl rfl
    · exact Or.inr ⟨_, rfl⟩

theorem foldl_reconcile_stable (db : List Quest) (fails : UploadKeyRow → Bool)
    (P : List ScoreRecord → Prop)
    (hP : ∀ st r, P st → P (insertScoreNoOp st r)) :
    ∀ (l : List UploadKeyRow) (store : List ScoreRecord),
      P store → P (l.foldl (reconcileStep db fails) store)
  | [], _, h => h
  | row :: rs, store, h => by
    rw [List.foldl_cons]
    apply foldl_reconcile_stable db fails P hP rs
    rcases reconcileStep_eq_or_insert db fails store row with heq | ⟨r, heq⟩
    · rw [heq]; exact h
    · rw [heq]; exact hP store r h

theorem applyScoreOp_stable (db : List Quest) (P : List ScoreRecord → Prop)
    (hP : ∀ st r, P st → P (insertScoreNoOp st r))
    (store : List ScoreRecord) (op : ScoreOp) (h : P store) :
    P (applyScoreOp db store op) := by
  cases op with
  | check qid answer uid pf now =>
    rcases checkStore_eq_or_insert db store qid answer uid pf now with heq | ⟨r, heq⟩
    · rw [applyScoreOp, heq]; exact h
    · rw [applyScoreOp, heq]; exact hP store r h
  | photoUpload uid qid pf now =>
    rcases uploadAutoScore_eq_or_insert db store uid qid pf now with heq | ⟨r, heq⟩
    · rw [applyScoreOp, heq]; exact h
    · rw [applyScoreOp, heq]; exact hP store r h
  | reconcile uploads fails =>
    rw [applyScoreOp]
    exact foldl_reconcile_stable db fails P hP _ store h

theorem applyScoreOps_stable (db : List Quest) (P : List ScoreRecord → Prop)
    (hP : ∀ st r, P st → P (insertScoreNoOp st r)) :
    ∀ (ops : List ScoreOp) (store : List ScoreRecord),
      P store → P (applyScoreOps db store ops)
  | [], _, h => h
  | op :: ops, store, h => by
    rw [applyScoreOps, List.foldl_cons]
    exact applyScoreOps_stable db P hP ops _ (applyScoreOp_stable db P hP store op h)

theorem recordsFor_nil_any {store : List ScoreRecord} {u : String} {qid : Nat}
    (hempty : recordsFor store u qid = []) :
    (store.any fun s => s.user_id == u && s.quest_id == qid) = false := by
  rw [List.any_eq_false]
  intro s hs
  have := List.filter_eq_nil_iff.mp hempty s hs
  simpa using this

theorem checkStore_fresh {db : List Quest} {store : List ScoreRecord} {qid : Nat}
    {a u : String} {now : Nat} {q : Quest}
    (hq : db.find? (fun qq => qq.id == qid) = some q) (ha : a ≠ "") (hu : u ≠ "")
    (hempty : recordsFor store u qid = []) :
    checkStore db store qid (some a) (some u) false now =
      store ++ [mkCheckRecord q qid u a now] := by
  simp [checkStore, hq, ha, hu, insertScoreNoOp, mkCheckRecord, recordsFor_nil_any hempty]

theorem recordsFor_append_fresh {store : List ScoreRecord} {u : String} {qid : Nat}
    {rec : ScoreRecord} (hempty : recordsFor store u qid = [])
    (hpair : (rec.user_id == u && rec.quest_id == qid) = true) :
    recordsFor (store ++ [rec]) u qid = [rec] := by
  unfold recordsFor at hempty ⊢
  rw [List.filter_append, hempty]
  simp [List.filter_cons, hpair]

theorem checkStore_dup {db : List Quest} {store : List ScoreRecord} {qid : Nat}
    {a u : String} {now : Nat} {q : Quest}
    (hq : db.find? (fun qq => qq.id == qid) = some q)
    (hexists : (store.any fun s => s.user_id == u && s.quest_id == qid) = true) :
    checkStore db store qid (some a) (some u) false now = store := by
  by_cases ha : a = ""
  · simp [checkStore, ha]
  · by_cases hu : u = ""
    · simp [checkStore, hq, ha, hu]
    · simp [checkStore, hq, ha, hu, insertScoreNoOp, mkCheckRecord, hexists]

/-! Helper lemmas about the random-quest selector. -/

theorem pickRandom_eq_none {α : Type} {l : List α} {r : Nat} :
    pickRandom l r = none ↔ l = [] := by
  unfold pickRandom
  constructor
  · intro h
    by_contra hne
    have hlt : r % l.length < l.length := Nat.mod_lt _ (List.length_pos.mpr hne)
    rw [List.getElem?_eq_getElem hlt] at h
    exact Option.noConfusion h
  · rintro rfl; rfl

theorem pickRandom_mem {α : Type} {l : List α} {r : Nat} {a : α}
    (h : pickRandom l r = some a) : a ∈ l := by
  unfold pickRandom at h
  exact List.getElem?_mem h

theorem mem_queryQuests {db : List Quest} {f : RegionFilter} {t : QuestType} {q : Quest} :
    q ∈ queryQuests db f t ↔
      q ∈ db ∧ matchesRegion f q = true ∧ matchesType t q = true := by
  unfold queryQuests
  rw [List.mem_filter, Bool.and_eq_true]

theorem matchesType_total (t : QuestType) (q : Quest) :
    matchesType t q = true ∨ matchesType (oppositeType t) q = true := by
  cases t <;> cases h : isPhotoQuest q <;> simp [matchesType, oppositeType, h]

theorem queryQuests_partition {db : List Quest} {f : RegionFilter} (t : QuestType) :
    db.filter (fun q => matchesRegion f q) = [] ↔
      queryQuests db f t = [] ∧ queryQuests db f (oppositeType t) = [] := by
  unfold queryQuests
  simp only [List.filter_eq_nil_iff, Bool.and_eq_true]
  constructor
  · intro h
    exact ⟨fun q hq hc => h q hq hc.1, fun q hq hc => h q hq hc.1⟩
  · intro h q hq hreg
    rcases matchesType_total t q with ht | ht
    · exact h.1 q hq ⟨hreg, ht⟩
    · exact h.2 q hq ⟨hreg, ht⟩

theorem matchesRegion_spec {f : RegionFilter} {q : Quest} (h : matchesRegion f q = true) :
    q.city = f.city ∧ (∀ t, f.town = some t → q.town = some t) ∧
      (∀ v, f.village = some v → q.village = some v) := by
  unfold matchesRegion at h
  simp only [Bool.and_eq_true] at h
  obtain ⟨⟨hc, ht⟩, hv⟩ := h
  refine ⟨by simpa [beq_iff_eq] using hc, ?_, ?_⟩
  · intro t hft
    rw [hft] at ht
    simpa [beq_iff_eq] using ht
  · intro v hfv
    rw [hfv] at hv
    simpa [beq_iff_eq] using hv

theorem mem_availableCities {db : List Quest} {c : String} :
    c ∈ availableCities db ↔ ∃ q ∈ db, q.city = c := by
  unfold availableCities
  simp [List.mem_dedup, List.mem_map]

theorem randomQuest_body (db : List Quest) (f : RegionFilter) (rt : Rat) (r1 r2 : Nat)
    (h : f.city ≠ "") :
    randomQuest db f rt r1 r2 =
      match pickRandom (queryQuests db f (drawType rt)) r1 with
      | some q => .ok (bodyFor (drawType rt) q)
      | none =>
        match pickRandom (queryQuests db f (oppositeType (drawType rt))) r2 with
        | some q => .ok (bodyFor (oppositeType (drawType rt)) q)
        | none => .notFound (noQuestMsg f) (availableCities db) := by
  unfold randomQuest
  rw [if_neg h]

theorem randomQuest_ok_cases {db : List Quest} {f : RegionFilter} {rt : Rat}
    {r1 r2 : Nat} {b : RandomQuestBody}
    (h : randomQuest db f rt r1 r2 = .ok b) :
    (∃ q, q ∈ queryQuests db f (drawType rt) ∧ b = bodyFor (drawType rt) q) ∨
      (∃ q, q ∈ queryQuests db f (oppositeType (drawType rt)) ∧
        b = bodyFor (oppositeType (drawType rt)) q) := by
  by_cases hc : f.city = ""
  · rw [randomQuest, if_pos hc] at h
    exact absurd h (by simp)
  · rw [randomQuest_body db f rt r1 r2 hc] at h
    cases h1 : pickRandom (queryQuests db f (drawType rt)) r1 with
    | some q =>
      rw [h1] at h
      exact Or.inl ⟨q, pickRandom_mem h1, by injection h with h; exact h.symm⟩
    | none =>
      rw [h1] at h
      cases h2 : pickRandom (queryQuests db f (oppositeType (drawType rt))) r2 with
      | some q =>
        rw [h2] at h
        exact Or.inr ⟨q, pickRandom_mem h2, by injection h with h; exact h.symm⟩
      | none =>
        rw [h2] at h
        exact absurd h (by simp)

theorem bodyFor_region (t : QuestType) (q : Quest) :
    (bodyFor t q).region = ⟨q.city, q.town, q.village⟩ := by
  cases t <;> rfl

/-- C1: over every sequence of score-writing operations (explicit answer
checks, photo-upload auto-scores and startup reconciliation runs) the
store keeps at most one ScoreRecord per (user_id, quest_id) pair; once a
pair has its record, later operations leave that exact record (hence its
answered_at, user_answer and awarded score) unchanged; and replaying the
same (user_id, quest_id, answer) check yields the same response (hence
the same awardedScore) in both calls, with exactly one stored record for
the pair. -/
theorem user_quest_scores_write_once
    (db : List Quest) (store : List ScoreRecord) (ops : List ScoreOp)
    (hU : PairUnique store) :
    PairUnique (applyScoreOps db store ops) ∧
    (∀ (u : String) (qid : Nat) (r : ScoreRecord),
      recordsFor store u qid = [r] →
      recordsFor (applyScoreOps db store ops) u qid = [r]) ∧
    (∀ (qid : Nat) (a u : String) (now1 now2 : Nat) (q : Quest),
      db.find? (fun qq => qq.id == qid) = some q → a ≠ "" → u ≠ "" →
      recordsFor store u qid = [] →
      (checkQuest db store qid (some a) (some u) false now1).fst =
        (checkQuest db (checkQuest db store qid (some a) (some u) false now1).snd
          qid (some a) (some u) false now2).fst ∧
      (recordsFor
        (checkQuest db (checkQuest db store qid (some a) (some u) false now1).snd
          qid (some a) (some u) false now2).snd u qid).length = 1) := by
  refine ⟨?_, ?_, ?_⟩
  · exact applyScoreOps_stable db PairUnique
      (fun st r h => insertScoreNoOp_pairUnique h) ops store hU
  · intro u qid r hr
    exact applyScoreOps_stable db (fun st => recordsFor st u qid = [r])
      (fun st rr h => insertScoreNoOp_recordsFixed h) ops store hr
  · intro qid a u now1 now2 q hq ha hu hempty
    refine ⟨rfl, ?_⟩
    have hpair : ((mkCheckRecord q qid u a now1).user_id == u &&
        (mkCheckRecord q qid u a now1).quest_id == qid) = true := by
      simp [mkCheckRecord]
    have hex : ((store ++ [mkCheckRecord q qid u a now1]).any fun s =>
        s.user_id == u && s.quest_id == qid) = true := by
      rw [List.any_eq_true]
      exact ⟨mkCheckRecord q qid u a now1, by simp, hpair⟩
    have hsnd : (checkQuest db (checkQuest db store qid (some a) (some u) false now1).snd
        qid (some a) (some u) false now2).snd =
        store ++ [mkCheckRecord q qid u a now1] := by
      show checkStore db (checkStore db store qid (some a) (some u) false now1)
          qid (some a) (some u) false now2 = _
      rw [checkStore_fresh hq ha hu hempty]
      exact checkStore_dup hq hex
    rw [hsnd, recordsFor_append_fresh hempty hpair]
    rfl

/-- C1 witness: the invariant, the fixed-record property and the replay
property at concrete inputs. -/
theorem user_quest_scores_write_once_witness :
    PairUnique (applyScoreOps db1 [rec1] ops1) ∧
    recordsFor (applyScoreOps db1 [rec1] ops1) "u" 1 = [rec1] ∧
    ((checkQuest db1 [rec1] 1 (some "b") (some "carol") false 20).fst =
      (checkQuest db1 (checkQuest db1 [rec1] 1 (some "b") (some "carol") false 20).snd
        1 (some "b") (some "carol") false 21).fst ∧
     (recordsFor
        (checkQuest db1 (checkQuest db1 [rec1] 1 (some "b") (some "carol") false 20).snd
          1 (some "b") (some "carol") false 21).snd "carol" 1).length = 1) := by
  have h := user_quest_scores_write_once db1 [rec1] ops1 (by decide)
  exact ⟨h.1, h.2.1 "u" 1 rec1 (by decide),
    h.2.2 1 "b" "carol" 20 21 quest1 (by decide) (by decide) (by decide) (by decide)⟩

/-- C2: the selector draws photo exactly when the uniform draw lies below
one half; with a valid city it queries the filtered region for the drawn
type, runs exactly one fallback query with the opposite type when that
result is empty and fails NotFound when both are empty; consequently a
region whose quests are all question-type never yields a photo-type body. -/
theorem random_quest_type_draw_and_single_fallback :
    ((mkRat 1 2 : Rat) = 1/2 ∧ ∀ rt : Rat, drawType rt = QuestType.photo ↔ rt < mkRat 1 2) ∧
    (∀ (db : List Quest) (f : RegionFilter) (rt : Rat) (r1 r2 : Nat),
      f.city ≠ "" →
      (queryQuests db f (drawType rt) ≠ [] →
        ∃ q ∈ queryQuests db f (drawType rt),
          randomQuest db f rt r1 r2 = .ok (bodyFor (drawType rt) q)) ∧
      (queryQuests db f (drawType rt) = [] →
        queryQuests db f (oppositeType (drawType rt)) ≠ [] →
        ∃ q ∈ queryQuests db f (oppositeType (drawType rt)),
          randomQuest db f rt r1 r2 = .ok (bodyFor (oppositeType (drawType rt)) q)) ∧
      (queryQuests db f (drawType rt) = [] →
        queryQuests db f (oppositeType (drawType rt)) = [] →
        randomQuest db f rt r1 r2 = .notFound (noQuestMsg f) (availableCities db))) ∧
    (∀ (db : List Quest) (f : RegionFilter) (rt : Rat) (r1 r2 : Nat) (b : RandomQuestBody),
      (∀ q ∈ db, matchesRegion f q = true → isPhotoQuest q = false) →
      randomQuest db f rt r1 r2 = .ok b → isPhotoBody b = false) := by
  refine ⟨⟨by norm_num, ?_⟩, ?_, ?_⟩
  · intro rt
    unfold drawType
    split
    · simp_all
    · simp_all
  · intro db f rt r1 r2 hc
    refine ⟨?_, ?_, ?_⟩
    · intro hne
      cases h1 : pickRandom (queryQuests db f (drawType rt)) r1 with
      | none => exact absurd (pickRandom_eq_none.mp h1) hne
      | some q =>
        exact ⟨q, pickRandom_mem h1, by rw [randomQuest_body db f rt r1 r2 hc, h1]⟩
    · intro hp hne
      have h1 : pickRandom (queryQuests db f (drawType rt)) r1 = none := by
        rw [hp]; rfl
      cases h2 : pickRandom (queryQuests db f (oppositeType (drawType rt))) r2 with
      | none => exact absurd (pickRandom_eq_none.mp h2) hne
      | some q =>
        exact ⟨q, pickRandom_mem h2, by rw [randomQuest_body db f rt r1 r2 hc, h1, h2]⟩
    · intro hp hfb
      have h1 : pickRandom (queryQuests db f (drawType rt)) r1 = none := by
        rw [hp]; rfl
      have h2 : pickRandom (queryQuests db f (oppositeType (drawType rt))) r2 = none := by
        rw [hfb]; rfl
      rw [randomQuest_body db f rt r1 r2 hc, h1, h2]
  · intro db f rt r1 r2 b hall hok
    rcases randomQuest_ok_cases hok with ⟨q, hmem, rfl⟩ | ⟨q, hmem, rfl⟩
    · rcases mem_queryQuests.mp hmem with ⟨hdb, hreg, htype⟩
      cases ht : drawType rt with
      | photo =>
        rw [ht] at htype
        have hphoto : isPhotoQuest q = true := by simpa [matchesType] using htype
        rw [hall q hdb hreg] at hphoto
        exact absurd hphoto (by simp)
      | question => rfl
    · rcases mem_queryQuests.mp hmem with ⟨hdb, hreg, htype⟩
      cases ht : drawType rt with
      | photo => rfl
      | question =>
        rw [ht] at htype
        have hphoto : isPhotoQuest q = true := by
          simpa [matchesType, oppositeType] using htype
        rw [hall q hdb hreg] at hphoto
        exact absurd hphoto (by simp)

/-- C2 witness: the draw threshold, the primary path and the
never-photo consequence at concrete inputs. -/
theorem random_quest_type_draw_and_single_fallback_witness :
    drawType (mkRat 1 4) = QuestType.photo ∧
    (∃ q ∈ queryQuests dbQ f1 (drawType (mkRat 3 4)),
      randomQuest dbQ f1 (mkRat 3 4) 0 0 = .ok (bodyFor (drawType (mkRat 3 4)) q)) ∧
    isPhotoBody (questionBody quest1) = false := by
  have h := random_quest_type_draw_and_single_fallback
  refine ⟨(h.1.2 (mkRat 1 4)).mpr (by decide), ?_, ?_⟩
  · exact (h.2.1 dbQ f1 (mkRat 3 4) 0 0 (by decide)).1 (by decide)
  · refine h.2.2 dbQ f1 (mkRat 1 4) 0 0 (questionBody quest1) ?_ (by decide)
    intro q hq hr
    rcases List.mem_singleton.mp hq with rfl
    decide

/-- C3: whenever the selector returns a quest, its region matches the
filter at every supplied level; the call fails NotFound, carrying the
available-cities diagnostic (each listed city really has a quest),
exactly when no quest of any type exists in the filtered region. -/
theorem random_quest_region_match_and_notFound :
    ∀ (db : List Quest) (f : RegionFilter) (rt : Rat) (r1 r2 : Nat),
      f.city ≠ "" →
      (∀ b, randomQuest db f rt r1 r2 = .ok b →
        b.region.city = f.city ∧
        (∀ tw, f.town = some tw → b.region.town = some tw) ∧
        (∀ vg, f.village = some vg → b.region.village = some vg)) ∧
      (∀ e cs, randomQuest db f rt r1 r2 = .notFound e cs →
        db.filter (fun q => matchesRegion f q) = [] ∧ cs = availableCities db ∧
        (∀ c ∈ cs, ∃ q ∈ db, q.city = c)) ∧
      (db.filter (fun q => matchesRegion f q) = [] →
        randomQuest db f rt r1 r2 = .notFound (noQuestMsg f) (availableCities db)) ∧
      (db.filter (fun q => matchesRegion f q) ≠ [] →
        ∃ b, randomQuest db f rt r1 r2 = .ok b) := by
  intro db f rt r1 r2 hc
  refine ⟨?_, ?_, ?_, ?_⟩
  · intro b hok
    rcases randomQuest_ok_cases hok with ⟨q, hmem, rfl⟩ | ⟨q, hmem, rfl⟩ <;>
    · rcases mem_queryQuests.mp hmem with ⟨hdb, hreg, htype⟩
      rcases matchesRegion_spec hreg with ⟨hcity, htown, hvillage⟩
      rw [bodyFor_region]
      exact ⟨hcity, htown, hvillage⟩
  · intro e cs hnf
    cases h1 : pickRandom (queryQuests db f (drawType rt)) r1 with
    | some q =>
      rw [randomQuest_body db f rt r1 r2 hc, h1] at hnf
      exact absurd hnf (by simp)
    | none =>
      cases h2 : pickRandom (queryQuests db f (oppositeType (drawType rt))) r2 with
      | some q =>
        rw [randomQuest_body db f rt r1 r2 hc, h1, h2] at hnf
        exact absurd hnf (by simp)
      | none =>
        rw [randomQuest_body db f rt r1 r2 hc, h1, h2] at hnf
        injection hnf with he hcs
        refine ⟨?_, hcs.symm, ?_⟩
        · exact (queryQuests_partition (drawType rt)).mpr
            ⟨pickRandom_eq_none.mp h1, pickRandom_eq_none.mp h2⟩
        · intro c hcmem
          rw [← hcs] at hcmem
          exact mem_availableCities.mp hcmem
  · intro hfilter
    obtain ⟨hp, hfb⟩ := (queryQuests_partition (drawType rt)).mp hfilter
    have h1 : pickRandom (queryQuests db f (drawType rt)) r1 = none := by
      rw [hp]; rfl
    have h2 : pickRandom (queryQuests db f (oppositeType (drawType rt))) r2 = none := by
      rw [hfb]; rfl
    rw [randomQuest_body db f rt r1 r2 hc, h1, h2]
  · intro hfilter
    cases h1 : pickRandom (queryQuests db f (drawType rt)) r1 with
    | some q =>
      exact ⟨_, by rw [randomQuest_body db f rt r1 r2 hc, h1]⟩
    | none =>
      cases h2 : pickRandom (queryQuests db f (oppositeType (drawType rt))) r2 with
      | some q =>
        exact ⟨_, by rw [randomQuest_body db f rt r1 r2 hc, h1, h2]⟩
      | none =>
        exact absurd ((queryQuests_partition (drawType rt)).mpr
          ⟨pickRandom_eq_none.mp h1, pickRandom_eq_none.mp h2⟩) hfilter

/-- C3 witness: the region of a returned quest and a concrete NotFound
at concrete inputs. -/
theorem random_quest_region_match_and_notFound_witness :
    (questionBody quest1).region.city = f1.city ∧
    (questionBody quest1).region.town = some "Aewol" ∧
    randomQuest db1 f2 0 0 0 = .notFound (noQuestMsg f2) (availableCities db1) := by
  have h := random_quest_region_match_and_notFound dbQ f1 (mkRat 1 4) 0 0 (by decide)
  have h2 := random_quest_region_match_and_notFound db1 f2 0 0 0 (by decide)
  exact ⟨(h.1 (questionBody quest1) (by decide)).1,
    (h.1 (questionBody quest1) (by decide)).2.1 "Aewol" rfl,
    h2.2.2.1 (by decide)⟩

theorem checkResult_ok {db : List Quest} {qid : Nat} {a : String} {q : Quest}
    (hq : db.find? (fun qq => qq.id == qid) = some q) (ha : a ≠ "") :
    checkResult db qid (some a) = .ok (checkBody q a) := by
  simp only [checkResult]
  rw [if_neg ha, hq]

/-- C4: the verdict of the check endpoint is invariant under letter case
— the whole response is determined by the case-folded answer — `correct`
holds exactly when the case-folded answer equals the case-folded
correct_answer, and the awarded score is 1 when correct and 0 otherwise. -/
theorem check_case_insensitive_verdict
    (db : List Quest) (store : List ScoreRecord) (qid : Nat) (a1 a2 : String)
    (uid : Option String) (pf : Bool) (now : Nat) (q : Quest)
    (hq : db.find? (fun qq => qq.id == qid) = some q)
    (ha1 : a1 ≠ "") (ha2 : a2 ≠ "") (h12 : jsToUpper a1 = jsToUpper a2) :
    (checkQuest db store qid (some a1) uid pf now).fst =
      (checkQuest db store qid (some a2) uid pf now).fst ∧
    ∀ b, (checkQuest db store qid (some a1) uid pf now).fst = .ok b →
      (b.correct = true ↔ jsToUpper a1 = jsToUpper q.correct_answer) ∧
      b.score = if b.correct = true then 1 else 0 := by
  have e1 : (checkQuest db store qid (some a1) uid pf now).fst = .ok (checkBody q a1) :=
    checkResult_ok hq ha1
  have e2 : (checkQuest db store qid (some a2) uid pf now).fst = .ok (checkBody q a2) :=
    checkResult_ok hq ha2
  constructor
  · rw [e1, e2]
    have hbody : checkBody q a1 = checkBody q a2 := by
      unfold checkBody
      rw [h12]
    rw [hbody]
  · intro b hb
    rw [e1] at hb
    injection hb with hb
    subst hb
    constructor
    · rw [show (checkBody q a1).correct = (jsToUpper q.correct_answer == jsToUpper a1)
        from rfl]
      rw [beq_iff_eq]
      exact eq_comm
    · rfl

/-- C4 witness: answers "b" and "B" against a correct_answer of "B" at a
concrete quest. -/
theorem check_case_insensitive_verdict_witness :
    (checkQuest db1 [] 1 (some "b") none false 0).fst =
      (checkQuest db1 [] 1 (some "B") none false 0).fst ∧
    ((checkBody quest1 "b").correct = true ↔
      jsToUpper "b" = jsToUpper quest1.correct_answer) ∧
    (checkBody quest1 "b").score =
      (if (checkBody quest1 "b").correct = true then 1 else 0) := by
  have h := check_case_insensitive_verdict db1 [] 1 "b" "B" none false 0 quest1
    (by decide) (by decide) (by decide) (by decide)
  exact ⟨h.1, (h.2 (checkBody quest1 "b") (by decide)).1,
    (h.2 (checkBody quest1 "b") (by decide)).2⟩

/-- C5: for valid inputs and a resolvable quest, a failing score insert
(store unavailable / insert error) is caught: the response is identical
to the non-failing one, the request still succeeds with the freshly
computed verification result, and the store is left untouched. -/
theorem check_persistence_failure_soft
    (db : List Quest) (store : List ScoreRecord) (qid : Nat) (a : String)
    (uid : Option String) (now : Nat) (q : Quest)
    (hq : db.find? (fun qq => qq.id == qid) = some q) (ha : a ≠ "") :
    (checkQuest db store qid (some a) uid true now).fst =
      (checkQuest db store qid (some a) uid false now).fst ∧
    (checkQuest db store qid (some a) uid true now).fst = .ok (checkBody q a) ∧
    (checkQuest db store qid (some a) uid true now).snd = store := by
  refine ⟨rfl, checkResult_ok hq ha, ?_⟩
  show checkStore db store qid (some a) uid true now = store
  cases uid with
  | none => simp [checkStore, hq, ha]
  | some u =>
    by_cases hu : u = ""
    · simp [checkStore, hq, ha, hu]
    · simp [checkStore, hq, ha, hu]

/-- C5 witness: a persistence failure at a concrete check call. -/
theorem check_persistence_failure_soft_witness :
    (checkQuest db1 [] 1 (some "A") (some "dave") true 5).fst =
      (checkQuest db1 [] 1 (some "A") (some "dave") false 5).fst ∧
    (checkQuest db1 [] 1 (some "A") (some "dave") true 5).fst =
      .ok (checkBody quest1 "A") ∧
    (checkQuest db1 [] 1 (some "A") (some "dave") true 5).snd = [] :=
  check_persistence_failure_soft db1 [] 1 "A" (some "dave") 5 quest1
    (by decide) (by decide)

/-- C10: every successful check response — for any nonempty answer,
correct or not, with or without a user_id, whatever the persistence
outcome — carries correctAnswer equal to the quest's stored
correct_answer and the full text of all four options. -/
theorem check_discloses_correct_answer
    (db : List Quest) (store : List ScoreRecord) (qid : Nat) (a : String)
    (uid : Option String) (pf : Bool) (now : Nat) (q : Quest)
    (hq : db.find? (fun qq => qq.id == qid) = some q) (ha : a ≠ "") :
    (checkQuest db store qid (some a) uid pf now).fst = .ok (checkBody q a) ∧
    (checkBody q a).correctAnswer = q.correct_answer ∧
    (checkBody q a).options =
      [("A", q.option_a), ("B", q.option_b), ("C", q.option_c), ("D", q.option_d)] :=
  ⟨checkResult_ok hq ha, rfl, rfl⟩

/-- C10 witness: a wrong answer from an anonymous caller still receives
the correct answer and the four option texts. -/
theorem check_discloses_correct_answer_witness :
    (checkQuest db1 [] 1 (some "D") none false 0).fst = .ok (checkBody quest1 "D") ∧
    (checkBody quest1 "D").correctAnswer = quest1.correct_answer ∧
    (checkBody quest1 "D").options =
      [("A", quest1.option_a), ("B", quest1.option_b),
       ("C", quest1.option_c), ("D", quest1.option_d)] :=
  check_discloses_correct_answer db1 [] 1 "D" none false 0 quest1
    (by decide) (by decide)

/-- C8: while the cache is populated and fresh, the listing returns the
cached ordered keys with no store I/O and an unchanged cache; after TTL
expiry (or before the first listing) one refresh lists the store,
filters to the canonical default-image pattern, sorts deterministically
and replaces the cache; a failing refresh returns the empty list without
raising and leaves the cache; and any call within the TTL of a
successful refresh returns the identical ordered list with no I/O. -/
theorem default_image_cache_ttl :
    (∀ (c : ImageCache) (now : Nat) (ks : List String)
       (lr : Except String (List String)),
      c.keys = some ks → now - c.fetchedAt < CACHE_TTL →
      getSeongsanImageList c now lr = (ks, c, false)) ∧
    (∀ (c : ImageCache) (now : Nat) (contents : List String),
      (c.keys = none ∨ CACHE_TTL ≤ now - c.fetchedAt) →
      getSeongsanImageList c now (Except.ok contents) =
        (sortKeys (contents.filter isSeongsanDefaultKey),
         ⟨some (sortKeys (contents.filter isSeongsanDefaultKey)), now⟩, true)) ∧
    (∀ (c : ImageCache) (now : Nat) (e : String),
      (c.keys = none ∨ CACHE_TTL ≤ now - c.fetchedAt) →
      getSeongsanImageList c now (Except.error e) = ([], c, true)) ∧
    (∀ l : List String, List.Sorted (fun a b : String => a ≤ b) (sortKeys l)) ∧
    (∀ (fs : List String) (t0 t1 : Nat) (lr : Except String (List String)),
      t1 - t0 < CACHE_TTL →
      getSeongsanImageList ⟨some fs, t0⟩ t1 lr = (fs, ⟨some fs, t0⟩, false)) := by
  refine ⟨?_, ?_, ?_, ?_, ?_⟩
  · intro c now ks lr hk hlt
    simp [getSeongsanImageList, hk, hlt]
  · intro c now contents h
    cases hc : c.keys with
    | none => simp [getSeongsanImageList, hc, refreshImageList]
    | some ks =>
      rcases h with hnone | hexp
      · rw [hc] at hnone
        exact absurd hnone (by simp)
      · simp [getSeongsanImageList, hc, refreshImageList, Nat.not_lt.mpr hexp]
  · intro c now e h
    cases hc : c.keys with
    | none => simp [getSeongsanImageList, hc, refreshImageList]
    | some ks =>
      rcases h with hnone | hexp
      · rw [hc] at hnone
        exact absurd hnone (by simp)
      · simp [getSeongsanImageList, hc, refreshImageList, Nat.not_lt.mpr hexp]
  · intro l
    exact List.sorted_insertionSort _ l
  · intro fs t0 t1 lr h
    simp [getSeongsanImageList, h]

/-- C8 witness: a fresh hit, a refresh that filters and sorts, a failed
refresh, sortedness and the two-call composition at concrete inputs. -/
theorem default_image_cache_ttl_witness :
    getSeongsanImageList ⟨some ["uploads/성산0.jpeg"], 100⟩ 200 (Except.error "down") =
      (["uploads/성산0.jpeg"], ⟨some ["uploads/성산0.jpeg"], 100⟩, false) ∧
    getSeongsanImageList ⟨none, 0⟩ 50
        (Except.ok ["uploads/성산1.jpeg", "uploads/성산0.jpeg", "uploads/note.txt"]) =
      (sortKeys (["uploads/성산1.jpeg", "uploads/성산0.jpeg",
          "uploads/note.txt"].filter isSeongsanDefaultKey),
       ⟨some (sortKeys (["uploads/성산1.jpeg", "uploads/성산0.jpeg",
          "uploads/note.txt"].filter isSeongsanDefaultKey)), 50⟩, true) ∧
    getSeongsanImageList ⟨none, 0⟩ 50 (Except.error "down") = ([], ⟨none, 0⟩, true) ∧
    List.Sorted (fun a b : String => a ≤ b)
      (sortKeys ["uploads/성산1.jpeg", "uploads/성산0.jpeg"]) ∧
    getSeongsanImageList ⟨some ["uploads/성산0.jpeg", "uploads/성산1.jpeg"], 50⟩ 60
        (Except.error "down") =
      (["uploads/성산0.jpeg", "uploads/성산1.jpeg"],
       ⟨some ["uploads/성산0.jpeg", "uploads/성산1.jpeg"], 50⟩, false) := by
  have h := default_image_cache_ttl
  exact ⟨h.1 ⟨some ["uploads/성산0.jpeg"], 100⟩ 200 ["uploads/성산0.jpeg"] _ rfl (by decide),
    h.2.1 ⟨none, 0⟩ 50 _ (Or.inl rfl),
    h.2.2.1 ⟨none, 0⟩ 50 "down" (Or.inl rfl),
    h.2.2.2.1 ["uploads/성산1.jpeg", "uploads/성산0.jpeg"],
    h.2.2.2.2 ["uploads/성산0.jpeg", "uploads/성산1.jpeg"] 50 60 (Except.error "down")
      (by decide)⟩

/-! Helper lemmas: the selector response does not read correct_answer. -/

theorem queryQuests_scrub (db : List Quest) (f : RegionFilter) (t : QuestType)
    (c : String) :
    queryQuests (db.map fun q => { q with correct_answer := c }) f t =
      (queryQuests db f t).map fun q => { q with correct_answer := c } := by
  unfold queryQuests
  rw [List.filter_map]
  rfl

theorem pickRandom_map {α β : Type} (g : α → β) (l : List α) (r : Nat) :
    pickRandom (l.map g) r = (pickRandom l r).map g := by
  unfold pickRandom
  rw [List.length_map, List.getElem?_map]

theorem bodyFor_scrub (t : QuestType) (q : Quest) (c : String) :
    bodyFor t { q with correct_answer := c } = bodyFor t q := by
  cases t <;> rfl

theorem availableCities_scrub (db : List Quest) (c : String) :
    availableCities (db.map fun q => { q with correct_answer := c }) =
      availableCities db := by
  unfold availableCities
  rw [List.map_map]
  rfl

theorem randomQuest_scrub (db : List Quest) (f : RegionFilter) (rt : Rat)
    (r1 r2 : Nat) (c : String) :
    randomQuest (db.map fun q => { q with correct_answer := c }) f rt r1 r2 =
      randomQuest db f rt r1 r2 := by
  by_cases hc : f.city = ""
  · simp [randomQuest, hc]
  · rw [randomQuest_body _ f rt r1 r2 hc, randomQuest_body db f rt r1 r2 hc]
    rw [queryQuests_scrub, pickRandom_map, queryQuests_scrub, pickRandom_map,
      availableCities_scrub]
    cases pickRandom (queryQuests db f (drawType rt)) r1 with
    | some q => simp [bodyFor_scrub]
    | none =>
      cases pickRandom (queryQuests db f (oppositeType (drawType rt))) r2 with
      | some q => simp [bodyFor_scrub]
      | none => simp

/-- C9: every returned body comes from a quest of the matching resolved
type — a photo body carries the instruction prompt, the upload endpoint
reference and an empty options object, a question body carries exactly
the four options — and the whole selector response is independent of
every quest's correct_answer, so the correct answer is never contained
in it. -/
theorem random_quest_body_shape :
    (∀ (db : List Quest) (f : RegionFilter) (rt : Rat) (r1 r2 : Nat)
       (b : RandomQuestBody),
      randomQuest db f rt r1 r2 = .ok b →
      ∃ q ∈ db,
        (b = photoBody q ∧ isPhotoQuest q = true) ∨
          (b = questionBody q ∧ isPhotoQuest q = false)) ∧
    (∀ q : Quest, ∃ pb : PhotoBody, photoBody q = .photo pb ∧
      pb.instruction = q.question ∧ pb.uploadEndpoint = "/api/s3/upload" ∧
      pb.options = []) ∧
    (∀ q : Quest, ∃ qb : QuestionBody, questionBody q = .question qb ∧
      qb.options = [("A", q.option_a), ("B", q.option_b),
                    ("C", q.option_c), ("D", q.option_d)]) ∧
    (∀ (db : List Quest) (f : RegionFilter) (rt : Rat) (r1 r2 : Nat) (c : String),
      randomQuest (db.map fun q => { q with correct_answer := c }) f rt r1 r2 =
        randomQuest db f rt r1 r2) := by
  refine ⟨?_, fun q => ⟨_, rfl, rfl, rfl, rfl⟩, fun q => ⟨_, rfl, rfl⟩,
    fun db f rt r1 r2 c => randomQuest_scrub db f rt r1 r2 c⟩
  intro db f rt r1 r2 b hok
  rcases randomQuest_ok_cases hok with ⟨q, hmem, rfl⟩ | ⟨q, hmem, rfl⟩ <;>
    rcases mem_queryQuests.mp hmem with ⟨hdb, hreg, htype⟩
  · refine ⟨q, hdb, ?_⟩
    cases ht : drawType rt with
    | photo =>
      rw [ht] at htype
      exact Or.inl ⟨rfl, by simpa [matchesType] using htype⟩
    | question =>
      rw [ht] at htype
      exact Or.inr ⟨rfl, by simpa [matchesType] using htype⟩
  · refine ⟨q, hdb, ?_⟩
    cases ht : drawType rt with
    | photo =>
      rw [ht] at htype
      exact Or.inr ⟨rfl, by simpa [matchesType, oppositeType] using htype⟩
    | question =>
      rw [ht] at htype
      exact Or.inl ⟨rfl, by simpa [matchesType, oppositeType] using htype⟩

/-- C9 witness: a concrete photo response, the two shapes, and
correct_answer independence at concrete inputs. -/
theorem random_quest_body_shape_witness :
    (∃ q ∈ db1, (photoBody quest2 = photoBody q ∧ isPhotoQuest q = true) ∨
      (photoBody quest2 = questionBody q ∧ isPhotoQuest q = false)) ∧
    (∃ pb : PhotoBody, photoBody quest2 = .photo pb ∧
      pb.instruction = quest2.question ∧ pb.uploadEndpoint = "/api/s3/upload" ∧
      pb.options = []) ∧
    (∃ qb : QuestionBody, questionBody quest1 = .question qb ∧
      qb.options = [("A", quest1.option_a), ("B", quest1.option_b),
                    ("C", quest1.option_c), ("D", quest1.option_d)]) ∧
    randomQuest (db1.map fun q => { q with correct_answer := "Z" }) f1 (mkRat 1 4) 0 0 =
      randomQuest db1 f1 (mkRat 1 4) 0 0 := by
  have h := random_quest_body_shape
  exact ⟨h.1 db1 f1 (mkRat 1 4) 0 0 (photoBody quest2) (by decide),
    h.2.1 quest2, h.2.2.1 quest1, h.2.2.2 db1 f1 (mkRat 1 4) 0 0 "Z"⟩

/-! Helper lemmas about the history image pipeline. -/

theorem historyImagesAux_length (uploads : List UploadRecord) (uid : String)
    (d : Nat → Option String) (sign : String → Option String) :
    ∀ (idx : Nat) (l : List ScoreRecord),
      (historyImagesAux uploads uid d sign idx l).length = l.length
  | _, [] => rfl
  | idx, r :: rs => by
    simp [historyImagesAux, historyImagesAux_length uploads uid d sign (idx + 1) rs]

theorem historyImagesAux_getElem (uploads : List UploadRecord) (uid : String)
    (d : Nat → Option String) (sign : String → Option String) :
    ∀ (l : List ScoreRecord) (idx i : Nat),
      (historyImagesAux uploads uid d sign idx l)[i]? =
        (l[i]?).map fun r =>
          resolveDisplayUrl sign (firstPassImage uploads uid r.quest_id (idx + i) d)
  | [], idx, i => by simp [historyImagesAux]
  | r :: rs, idx, 0 => by simp [historyImagesAux]
  | r :: rs, idx, i + 1 => by
    have ih := historyImagesAux_getElem uploads uid d sign rs (idx + 1) i
    simp only [historyImagesAux, List.getElem?_cons_succ, ih]
    have harith : idx + 1 + i = idx + (i + 1) := by omega
    rw [harith]

/-- C6 counterexample: with the presigner unavailable (this signer fails
on every key, so no storage key resolves to a signed handle) the history
endpoint returns the stored static URL of the uploaded image — neither a
freshly minted signed handle nor null — refuting the claim at this
concrete input. -/
theorem history_stored_url_counterexample :
    historyImages [rec1] [upRegional] "u" defaultUrl0 signNone =
      [some "https://b.s3.ap-northeast-2.amazonaws.com/uploads/x.jpg"] ∧
    signNone "uploads/x.jpg" = none := by
  exact ⟨by decide, rfl⟩

/-- C6 (amended): an entry's display URL is re-signed only when the
stored URL contains the ap-northeast-2 host marker, a file key can be
extracted from it and the presigner succeeds; otherwise — non-matching
URL, unextractable key, or signing failure — the stored static URL
itself is returned; an entry with no URL stays null, the default-image
helper yields null when its key cannot be signed, and the history
request always succeeds with one image slot per row. -/
theorem history_image_url_resolution :
    (∀ sign : String → Option String, resolveDisplayUrl sign none = none) ∧
    (∀ (sign : String → Option String) (url : String),
      jsIncludes url s3HostMarker = false →
      resolveDisplayUrl sign (some url) = some url) ∧
    (∀ (sign : String → Option String) (url : String),
      jsIncludes url s3HostMarker = true → extractFileKey url = "" →
      resolveDisplayUrl sign (some url) = some url) ∧
    (∀ (sign : String → Option String) (url fresh : String),
      jsIncludes url s3HostMarker = true → extractFileKey url ≠ "" →
      sign (extractFileKey url) = some fresh →
      resolveDisplayUrl sign (some url) = some fresh) ∧
    (∀ (sign : String → Option String) (url : String),
      jsIncludes url s3HostMarker = true → extractFileKey url ≠ "" →
      sign (extractFileKey url) = none →
      resolveDisplayUrl sign (some url) = some url) ∧
    (∀ (bucketSet : Bool) (i : Nat) (head : HeadResult)
       (sign : String → Option String),
      sign (seongsanKey i) = none → getSeongsanImageUrl bucketSet i head sign = none) ∧
    (∀ (store : List ScoreRecord) (uploads : List UploadRecord) (uid : String)
       (defaultUrl : Nat → Option String) (sign : String → Option String),
      (historyImages store uploads uid defaultUrl sign).length =
        (userHistoryRows store uid).length) := by
  refine ⟨fun sign => rfl, ?_, ?_, ?_, ?_, ?_, ?_⟩
  · intro sign url h
    simp [resolveDisplayUrl, h]
  · intro sign url h hk
    simp [resolveDisplayUrl, h, hk]
  · intro sign url fresh h hk hs
    simp [resolveDisplayUrl, h, hk, hs]
  · intro sign url h hk hs
    simp [resolveDisplayUrl, h, hk, hs]
  · intro bucketSet i head sign hs
    unfold getSeongsanImageUrl
    cases bucketSet
    · rfl
    · by_cases hi : i > 2
      · simp [hi]
      · simp only [hi, Bool.not_true, Bool.false_eq_true, if_false, if_neg hi]
        cases head
        · exact hs
        · rfl
        · exact hs
  · intro store uploads uid defaultUrl sign
    exact historyImagesAux_length uploads uid defaultUrl sign 0 (userHistoryRows store uid)

/-- C6 amended-claim witness: all resolution cases at concrete URLs. -/
theorem history_image_url_resolution_witness :
    resolveDisplayUrl signOk none = none ∧
    resolveDisplayUrl signOk (some "https://b.s3.us-east-1.amazonaws.com/uploads/x.jpg") =
      some "https://b.s3.us-east-1.amazonaws.com/uploads/x.jpg" ∧
    resolveDisplayUrl signOk (some "https://s3.ap-northeast-2.amazonaws.com/b/x.jpg") =
      some "https://s3.ap-northeast-2.amazonaws.com/b/x.jpg" ∧
    resolveDisplayUrl signOk (some "https://b.s3.ap-northeast-2.amazonaws.com/uploads/x.jpg") =
      some "signed:uploads/x.jpg" ∧
    resolveDisplayUrl signNone (some "https://b.s3.ap-northeast-2.amazonaws.com/uploads/x.jpg") =
      some "https://b.s3.ap-northeast-2.amazonaws.com/uploads/x.jpg" ∧
    getSeongsanImageUrl true 0 HeadResult.found signNone = none ∧
    (historyImages [rec1] [upRegional] "u" defaultUrl0 signOk).length =
      (userHistoryRows [rec1] "u").length := by
  have h := history_image_url_resolution
  exact ⟨h.1 signOk,
    h.2.1 signOk _ (by decide),
    h.2.2.1 signOk _ (by decide) (by decide),
    h.2.2.2.1 signOk "https://b.s3.ap-northeast-2.amazonaws.com/uploads/x.jpg"
      "signed:uploads/x.jpg" (by decide) (by decide) (by decide),
    h.2.2.2.2.1 signNone "https://b.s3.ap-northeast-2.amazonaws.com/uploads/x.jpg"
      (by decide) (by decide) rfl,
    h.2.2.2.2.2.1 true 0 HeadResult.found signNone rfl,
    h.2.2.2.2.2.2 [rec1] [upRegional] "u" defaultUrl0 signOk⟩

/-- C7 counterexample: in a two-entry history whose first (newest) entry
is resolved by an upload, the second entry — the first one without an
upload — receives default slot 1 (its listing position) although slot 0
is unused, refuting the next-unused-slot reading at this concrete
input. -/
theorem history_default_slot_counterexample :
    historyImages [rec1, rec2] [upOtherRegion] "u" defaultUrl0 signOk =
      [some "https://b.s3.us-east-1.amazonaws.com/uploads/x.jpg", some "default1"] ∧
    defaultUrl0 1 ≠ defaultUrl0 0 := by
  exact ⟨by decide, by decide⟩

/-- C7 (amended): the image of the history entry at 0-based position i
is resolved as: the stored URL of the newest UploadRecord for
(user_id, quest_id) when one exists; otherwise default slot i — the
listing position itself, not the next unused slot — when i < 3;
otherwise no image; all composed with the re-signing second pass. -/
theorem history_image_position_slots :
    (∀ (store : List ScoreRecord) (uploads : List UploadRecord) (uid : String)
       (defaultUrl : Nat → Option String) (sign : String → Option String)
       (i : Nat) (r : ScoreRecord),
      (userHistoryRows store uid)[i]? = some r →
      (historyImages store uploads uid defaultUrl sign)[i]? =
        some (resolveDisplayUrl sign
          (firstPassImage uploads uid r.quest_id i defaultUrl))) ∧
    (∀ (uploads : List UploadRecord) (uid : String) (qid i : Nat)
       (defaultUrl : Nat → Option String) (url : String),
      qid ≠ 0 → lookupUploadUrl uploads uid qid = some url →
      firstPassImage uploads uid qid i defaultUrl = some url) ∧
    (∀ (uploads : List UploadRecord) (uid : String) (qid i : Nat)
       (defaultUrl : Nat → Option String),
      (qid = 0 ∨ lookupUploadUrl uploads uid qid = none) →
      firstPassImage uploads uid qid i defaultUrl =
        if i < 3 then defaultUrl i else none) := by
  refine ⟨?_, ?_, ?_⟩
  · intro store uploads uid defaultUrl sign i r hr
    show (historyImagesAux uploads uid defaultUrl sign 0 (userHistoryRows store uid))[i]? = _
    rw [historyImagesAux_getElem, hr]
    simp
  · intro uploads uid qid i defaultUrl url hqid hlk
    unfold firstPassImage
    rw [if_pos (by simpa using hqid), hlk]
  · intro uploads uid qid i defaultUrl h
    rcases h with rfl | hnone
    · simp [firstPassImage]
    · simp [firstPassImage, hnone]

/-- C7 amended-claim witness: the per-position composition and both
resolution branches at concrete inputs. -/
theorem history_image_position_slots_witness :
    (historyImages [rec1, rec2] [upOtherRegion] "u" defaultUrl0 signOk)[1]? =
      some (resolveDisplayUrl signOk
        (firstPassImage [upOtherRegion] "u" rec2.quest_id 1 defaultUrl0)) ∧
    firstPassImage [upOtherRegion] "u" 1 0 defaultUrl0 =
      some "https://b.s3.us-east-1.amazonaws.com/uploads/x.jpg" ∧
    firstPassImage [upOtherRegion] "u" 2 1 defaultUrl0 =
      (if 1 < 3 then defaultUrl0 1 else none) := by
  have h := history_image_position_slots
  exact ⟨h.1 [rec1, rec2] [upOtherRegion] "u" defaultUrl0 signOk 1 rec2 (by decide),
    h.2.1 [upOtherRegion] "u" 1 0 defaultUrl0
      "https://b.s3.us-east-1.amazonaws.com/uploads/x.jpg" (by decide) (by decide),
    h.2.2 [upOtherRegion] "u" 2 1 defaultUrl0 (Or.inr (by decide))⟩

end QuestEngine
